import Mathlib

/-!
Shallow embedding of the translation layer of the blender_niftools_addon
excerpt: texture-animation export, object/material property export, and
texture import (path resolution and image loading).  Numeric values that are
Python floats are modelled as rationals; Python dictionaries and Blender
registries are modelled as association lists; fallible code returns `Except`.
-/

/-! ## Basic string helpers (Python `in`, `os.path` operations) -/

/-- Bool test that `pre` is an initial segment of the second list (used for the
Python substring operator). -/
def listPrefixOf : List Char → List Char → Bool
  | [], _ => true
  | _ :: _, [] => false
  | a :: as, b :: bs => a == b && listPrefixOf as bs

/-- Bool test that `needle` occurs contiguously somewhere in the list. -/
def listContainsSub (needle : List Char) : List Char → Bool
  | [] => listPrefixOf needle []
  | c :: cs => listPrefixOf needle (c :: cs) || listContainsSub needle cs

/-- Python `needle in haystack` on strings (substring containment). -/
def strContains (haystack needle : String) : Bool :=
  listContainsSub needle.toList haystack.toList

/-- First index at which `needle` occurs in `haystack`, Python `str.find`
(`none` stands for the -1 result). -/
def strFind (haystack needle : String) : Option Nat :=
  (List.range (haystack.toList.length + 1)).find?
    (fun i => listPrefixOf needle.toList (haystack.toList.drop i))

/-- Characters of the component after the last slash (`acc` holds the current
component reversed). -/
def basenameChars : List Char → List Char → List Char
  | [], acc => acc.reverse
  | c :: cs, acc =>
    if c = '/' then basenameChars cs [] else basenameChars cs (c :: acc)

/-- `os.path.basename` on a POSIX path: the component after the last slash. -/
def basename (path : String) : String :=
  String.mk (basenameChars path.toList [])

/-- Bool test that the string starts with the given string. -/
def strStarts (s pre : String) : Bool :=
  listPrefixOf pre.toList s.toList

/-- Bool test that the string ends with the given string. -/
def strEnds (s suf : String) : Bool :=
  listPrefixOf suf.toList.reverse s.toList.reverse

/-- `os.path.join` for two POSIX path components. -/
def path_join (a b : String) : String :=
  if strStarts b "/" then b
  else if a = "" then b
  else if strEnds a "/" then a ++ b
  else a ++ "/" ++ b

/-! ## `nif_export/animation/texture.py`: interpolation mapping and key export -/

/-- `nifgen.formats.nif.classes.KeyType` members used by the add-on. -/
inductive KeyType where
  | LINEAR_KEY
  | QUADRATIC_KEY
  | TBC_KEY
  | XYZ_ROTATION_KEY
  | CONSTANT_KEY
  deriving DecidableEq, Repr

/-- The `interpolation_map` dict literal in
`TextureAnimation.get_nif_interpolation`. -/
def interpolation_map : List (String × KeyType) :=
  [("LINEAR", KeyType.LINEAR_KEY),
   ("CONSTANT", KeyType.CONSTANT_KEY),
   ("BEZIER", KeyType.QUADRATIC_KEY)]

/-- `TextureAnimation.get_nif_interpolation`: dict `.get` with default
`LINEAR_KEY`. -/
def get_nif_interpolation (blender_interpolation : String) : KeyType :=
  (interpolation_map.lookup blender_interpolation).getD KeyType.LINEAR_KEY

/-- One Blender keyframe point: `co[0]` is the frame, `co[1]` the value,
plus its interpolation mode string. -/
structure Keyframe where
  frame : ℚ
  value : ℚ
  interpolation : String
  deriving DecidableEq, Repr

/-- `nifgen` `NiFloatKey` as filled in by the exporter. -/
structure NiFloatKey where
  time : ℚ
  value : ℚ
  interpolation : KeyType
  deriving DecidableEq, Repr

/-- `TextureAnimation.export_fcurve_to_nif_keys`: the loop builds one
`NiFloatKey` per keyframe point, in order, and stores the list in
`n_ni_float_data.keys`; the function returns that list. -/
def export_fcurve_to_nif_keys (fps : ℚ) (keyframe_points : List Keyframe) :
    List NiFloatKey :=
  keyframe_points.map fun keyframe =>
    { time := keyframe.frame / fps
      value := keyframe.value
      interpolation := get_nif_interpolation keyframe.interpolation }

/-! ## `nif_import/property/nodes_wrapper/__init__.py`: apply-mode mapping -/

/-- `nifgen` `ApplyMode` enum values (underlying integers). -/
def APPLY_REPLACE : Nat := 0

def APPLY_DECAL : Nat := 1

def APPLY_MODULATE : Nat := 2

def APPLY_HILIGHT : Nat := 3

def APPLY_HILIGHT2 : Nat := 4

/-- `NodesWrapper.get_b_blend_type_from_n_apply_mode`.  The second component
records whether the fallthrough branch logged its warning. -/
def get_b_blend_type_from_n_apply_mode (n_apply_mode : Nat) : String × Bool :=
  if n_apply_mode = APPLY_MODULATE then ("MIX", false)
  else if n_apply_mode = APPLY_REPLACE then ("COLOR", false)
  else if n_apply_mode = APPLY_DECAL then ("OVERLAY", false)
  else if n_apply_mode = APPLY_HILIGHT then ("LIGHTEN", false)
  else if n_apply_mode = APPLY_HILIGHT2 then ("MULTIPLY", false)
  else ("MIX", true)

/-! ## `nif_export/property/object.py`: block de-duplication registry -/

/-- Values stored in NIF block fields that the de-duplication lookup compares. -/
inductive NifValue where
  | int (i : Int)
  | str (s : String)
  deriving DecidableEq, Repr

/-- A registered NIF block: `type_name` models `str(type(block))` and `attrs`
models the object attribute dictionary (lookup returns the most recent
binding, so prepending is Python `setattr`). -/
structure NifBlock where
  type_name : String
  attrs : List (String × NifValue)
  deriving DecidableEq, Repr

/-- Python `getattr(block, param, None)`. -/
def nifGetattr (block : NifBlock) (param : String) : Option NifValue :=
  block.attrs.lookup param

/-- Python `setattr(block, param, value)`. -/
def nifSetattr (block : NifBlock) (param : String) (value : NifValue) : NifBlock :=
  { block with attrs := (param, value) :: block.attrs }

/-- The `block_type in str(type(block))` test of `get_matching_block`. -/
def typeMatches (block : NifBlock) (block_type : String) : Bool :=
  strContains block.type_name block_type

/-- The inner `for param, attribute in kwargs.items()` loop of
`get_matching_block`: the block survives when every non-None requirement is
met (`getattr(block, param, None) == attribute`). -/
def kwargsMatch (block : NifBlock) (kwargs : List (String × Option NifValue)) : Bool :=
  kwargs.all fun pa =>
    match pa.2 with
    | none => true
    | some attr_val => nifGetattr block pa.1 == some attr_val

/-- The final `for param, attribute in kwargs.items(): if attribute is not
None: setattr(block, param, attribute)` loop of `get_matching_block`. -/
def setAttrs (kwargs : List (String × Option NifValue)) (b : NifBlock) : NifBlock :=
  kwargs.foldl
    (fun b pa =>
      match pa.2 with
      | none => b
      | some attr_val => nifSetattr b pa.1 attr_val) b

/-- `ObjectProperty.get_matching_block`.  `block_to_obj` is the registry in
insertion order; `new_block` is the fresh block that `block_store.create_block`
would produce (its default attributes are external).  Returns the chosen block
and the registry afterwards: a found block leaves the registry unchanged,
otherwise the fresh block has the non-None keyword attributes set and is
registered. -/
def get_matching_block (block_to_obj : List NifBlock) (block_type : String)
    (kwargs : List (String × Option NifValue)) (new_block : NifBlock) :
    NifBlock × List NifBlock :=
  match block_to_obj.find?
      (fun block => typeMatches block block_type && kwargsMatch block kwargs) with
  | some block => (block, block_to_obj)
  | none =>
    let block := setAttrs kwargs new_block
    (block, block_to_obj ++ [block])

/-! ## `nif_import/property/texture/loader.py`: image loading and path search -/

/-- A Blender image datablock as far as the loader observes it. -/
structure BImage where
  name : String
  width : Nat
  height : Nat
  filepath : String
  deriving DecidableEq, Repr

/-- The observable state of `bpy.data.images` threaded through the loader:
`images` is the datablock registry keyed by image name (the host names a
loaded image after the file basename), `load_results` records for which
paths `bpy.data.images.load` succeeds and with which image (absence means the
call raises), and `accesses` logs every path on which a file load was
attempted. -/
structure BpyImages where
  images : List (String × BImage)
  load_results : List (String × BImage)
  accesses : List String
  deriving DecidableEq, Repr

/-- `TextureLoader.load_image`: reuse the image registered under the path
basename; otherwise try `bpy.data.images.load` and, when that raises, build a
1x1 generated placeholder named after the basename with `filepath` set to the
requested path.  Both the successful load and the placeholder register a new
datablock. -/
def load_image (st : BpyImages) (tex_path : String) : BImage × BpyImages :=
  let name := basename tex_path
  match st.images.lookup name with
  | some b_image => (b_image, st)
  | none =>
    match st.load_results.lookup tex_path with
    | some b_image =>
      (b_image, { st with images := st.images ++ [(name, b_image)],
                          accesses := st.accesses ++ [tex_path] })
    | none =>
      let b_image : BImage :=
        { name := name, width := 1, height := 1, filepath := tex_path }
      (b_image, { st with images := st.images ++ [(name, b_image)],
                          accesses := st.accesses ++ [tex_path] })

/-- External collaborators of `TextureLoader.import_external_source`:
the directory of the NIF file, the user texture directory preference, the
current working directory, `os.path.exists`, `bpy.path.resolve_ncase`, and
the Blender relative-path helpers. -/
structure LoaderEnv where
  import_path : String
  texture_directory : String
  cwd : String
  fs_exists : String → Bool
  resolve_ncase : String → String
  abspath : String → String
  relpath : String → String

/-- Python `fn[:-4]`. -/
def strDropLast4 (fn : String) : String :=
  String.mk (fn.toList.take (fn.toList.length - 4))

/-- The candidate file-name list of `import_external_source`: `[fn, fn.lower()]`
followed by the alternate-extension variants.  Python builds the variants as
`list(set(...))`, whose iteration order is unspecified; the model keeps the
generation order with duplicates removed. -/
def texfns_for (fn : String) : List String :=
  let exts := [".DDS", ".dds", ".PNG", ".png", ".TGA", ".tga", ".BMP", ".bmp",
               ".JPG", ".jpg"]
  let variants := (exts.map
    (fun ext => [strDropLast4 fn ++ ext, (strDropLast4 fn).toLower ++ ext])).flatten
  [fn, fn.toLower] ++ variants.dedup

/-- Path formed for one candidate file name in one search directory, including
the Morrowind double-`textures` strip and `resolve_ncase`. -/
def candidate_path (env : LoaderEnv) (relative : Bool) (texdir texfn : String) :
    String :=
  let tex :=
    if (texfn.take 9).toLower = "textures/" ∧
        (texdir.drop (texdir.length - 9)).toLower = "/textures" then
      path_join (texdir.take (texdir.length - 9)) texfn
    else
      path_join texdir texfn
  let tex := if relative then env.abspath ("//" ++ tex) else tex
  env.resolve_ncase tex

/-- The inner `for texfn in texfns` loop: the first candidate that exists on
disk yields the path handed to `load_image` (made relative again when the
directory was Blender-relative). -/
def find_in_texfns (env : LoaderEnv) (relative : Bool) (texdir : String) :
    List String → Option String
  | [] => none
  | texfn :: rest =>
    let tex := candidate_path env relative texdir texfn
    if env.fs_exists tex then some (if relative then env.relpath tex else tex)
    else find_in_texfns env relative texdir rest

/-- The outer `for texdir in search_path_list` loop. -/
def find_in_dirs (env : LoaderEnv) (fn : String) : List String → Option String
  | [] => none
  | texdir :: rest =>
    let relative := texdir.take 2 = "//"
    let texdir1 := if relative then texdir.drop 2 else texdir
    let texdir2 := texdir1.replace "\\" "/"
    match find_in_texfns env relative texdir2 (texfns_for fn) with
    | some tex => some tex
    | none => find_in_dirs env fn rest

/-- The `search_path_list` built by `import_external_source`: the NIF
directory, the (truthy) texture-directory preference, `cwd/nif`, and the
Morrowind (`meshes` to `textures`) and Civilization IV (`art` to `shared`)
heuristics. -/
def search_path_list (env : LoaderEnv) : List String :=
  let l := [env.import_path]
  let l := if env.texture_directory ≠ "" then l ++ [env.texture_directory] else l
  let l := l ++ [path_join env.cwd "nif"]
  let l := match strFind env.import_path.toLower "meshes" with
    | some i => l ++ [env.import_path.take i ++ "textures"]
    | none => l
  match strFind env.import_path.toLower "art" with
  | some i => l ++ [env.import_path.take i ++ "shared"]
  | none => l

/-- `TextureLoader.import_external_source` for a string source: normalise the
separators, walk the search paths, and in every case end by handing a path to
`load_image` (the `for ... else` sets `tex = fn` when nothing was found). -/
def import_external_source (env : LoaderEnv) (st : BpyImages) (source : String) :
    BImage × BpyImages :=
  let fn := source.replace "\\" "/"
  match find_in_dirs env fn (search_path_list env) with
  | some tex => load_image st tex
  | none => load_image st fn

/-- External collaborators of `TextureLoader.import_embedded_texture_source`:
the directory of the NIF file and the name `generate_image_name` would pick
(a filesystem probe). -/
structure EmbedEnv where
  nif_dir : String
  generated_name : String
  deriving Repr

/-- State touched by `import_embedded_texture_source`: the module-level
`TextureLoader.external_textures` set, the log of paths opened for writing
(the `.dds` extraction, performed even when `save_as_dds` raises `ValueError`,
which is caught), and the image registry. -/
structure EmbedState where
  external_textures : List String
  disk_writes : List String
  images : BpyImages
  deriving DecidableEq, Repr

/-- `TextureLoader.import_embedded_texture_source`: compute the target path,
write the `.dds` once per run guarded by the `external_textures` set, then
load the written file as an image. -/
def import_embedded_texture_source (env : EmbedEnv) (st : EmbedState)
    (file_name : String) : BImage × EmbedState :=
  let tex_path :=
    if file_name = "" then env.generated_name
    else path_join env.nif_dir file_name
  let st1 :=
    if tex_path ∈ st.external_textures then st
    else { st with disk_writes := st.disk_writes ++ [tex_path],
                   external_textures := st.external_textures ++ [tex_path] }
  let res := load_image st1.images tex_path
  (res.1, { st1 with images := res.2 })

/-! ## `nif_export/property/texture/texture.py`: UV source node dispatch -/

/-- The shader-node kinds `get_uv_node` distinguishes: `bpy.types.ShaderNodeUVMap`
(with its `uv_map` name), `bpy.types.ShaderNodeTexCoord`, and any other node
type. -/
inductive BShaderNode where
  | uvmap (uv_map : String)
  | texcoord
  | other (type_name : String)
  deriving DecidableEq, Repr

/-- The vector input socket of a texture node: `links` holds the `from_node`
of each incoming link (empty when nothing is plugged in). -/
structure BNodeSocket where
  links : List BShaderNode
  deriving DecidableEq, Repr

/-- Modelled from the spec: `TextureCommon.get_input_node_of_type` lives in
`nif_export/property/texture/common.py`, which is not part of this excerpt.
Per the spec, `get_uv_node` inspects "the node feeding" the vector input
socket, so this helper returns the node linked into the socket when it is of
one of the requested node types and `None` otherwise (in particular when the
socket has no link). -/
def get_input_node_of_type (socket : BNodeSocket)
    (want_uvmap want_texcoord : Bool) : Option BShaderNode :=
  match socket.links.head? with
  | none => none
  | some n =>
    match n with
    | BShaderNode.uvmap s => if want_uvmap then some (BShaderNode.uvmap s) else none
    | BShaderNode.texcoord => if want_texcoord then some BShaderNode.texcoord else none
    | BShaderNode.other _ => none

/-- Result of `NiTexturingProperty.get_uv_node`: a UV set index or the
`"REFLECT"` marker. -/
inductive UVNodeResult where
  | uv_index (i : Int)
  | reflect
  deriving DecidableEq, Repr

/-- The `int(uv_name[2:])` parse with its bare `except: return 0`. -/
def parse_uv_index (uv_name : String) : Int :=
  match (uv_name.drop 2).toInt? with
  | some i => i
  | none => 0

/-- `NiTexturingProperty.get_uv_node`: unlinked socket means UV set 0, a UV-map
node yields its parsed index, a texture-coordinate node yields `"REFLECT"`,
and anything else feeding a linked socket raises `NifError`. -/
def get_uv_node (socket : BNodeSocket) : Except String UVNodeResult :=
  match get_input_node_of_type socket true true with
  | none =>
    if socket.links.isEmpty then Except.ok (UVNodeResult.uv_index 0)
    else Except.error "Unsupported vector input"
  | some (BShaderNode.uvmap uv_name) =>
    Except.ok (UVNodeResult.uv_index (parse_uv_index uv_name))
  | some BShaderNode.texcoord => Except.ok UVNodeResult.reflect
  | some (BShaderNode.other _) => Except.error "Unsupported vector input"

/-! ## `nif_export/animation/texture.py`: NiFlipController export -/

/-- The fields of a `NiFlipController` block that `export_ni_flip_controller`
fills in (`sources` holds the texture line exported for each frame). -/
structure NiFlipController where
  flags : Nat
  frequency : ℚ
  start_time : ℚ
  stop_time : ℚ
  texture_slot : Nat
  num_sources : Nat
  sources : List String
  delta : ℚ
  deriving DecidableEq, Repr

/-- `TextureAnimation.export_ni_flip_controller` over the lines of the
flip-book text buffer.  The first component is the warning log.  When fewer
than two non-empty lines are found the code executes
`raise NifLog.warn(...)`: the warning is logged and then the `raise` aborts
the export (`NifLog.warn` returns `None`, and raising it is fatal), modelled
as `Except.error ()`; otherwise the filled controller is returned and `delta`
is computed. -/
def export_ni_flip_controller (fps : ℚ) (frame_start frame_end : Int)
    (target_tex : Nat) (tlist : List String) :
    List String × Except Unit NiFlipController :=
  let start := frame_start
  let start_time : ℚ := ((start : ℚ) - 1) * fps
  let stop_time : ℚ := ((frame_end : ℚ) - (start : ℚ)) * fps
  let sources := tlist.filter (fun t => t.length ≠ 0)
  let count := sources.length
  if count < 2 then
    (["Error in Texture Flip buffer: must define at least two textures"],
     Except.error ())
  else
    ([], Except.ok
      { flags := 8, frequency := 1, start_time := start_time,
        stop_time := stop_time, texture_slot := target_tex,
        num_sources := count, sources := sources,
        delta := (stop_time - start_time) / (count : ℚ) })

/-! ## `nif_export/property/object.py`: BSXFlags export -/

/-- A Blender object as far as `export_bs_x_flags` and its helpers observe it:
`parent_rigid_body` is `some rb` when the object has a parent whose
`rigid_body` truthiness is `rb`, and `none` when `b_obj.parent` is `None`
(in which case Python raises `AttributeError` on `b_obj.parent.rigid_body`). -/
structure BObject where
  rigid_body : Bool
  parent_rigid_body : Option Bool
  animation_data : Bool
  motion_system : String
  deriving DecidableEq, Repr

/-- `ObjectProperty.has_collision`: collect objects with a rigid body whose
parent has none; accessing `parent.rigid_body` on a parentless rigid-body
object raises `AttributeError`, which aborts the whole helper. -/
def has_collision : List BObject → Except String (List BObject)
  | [] => Except.ok []
  | b_obj :: rest =>
    if b_obj.rigid_body then
      match b_obj.parent_rigid_body with
      | none => Except.error "AttributeError"
      | some prb =>
        if !prb then (has_collision rest).map (fun l => b_obj :: l)
        else has_collision rest
    else has_collision rest

/-- `ObjectProperty.has_dynamic_collision`: rigid-body objects whose motion
system string contains neither `INVALID` nor `FIXED`. -/
def has_dynamic_collision (objs : List BObject) : List BObject :=
  objs.filter (fun b_obj => b_obj.rigid_body &&
    !(strContains b_obj.motion_system "INVALID") &&
    !(strContains b_obj.motion_system "FIXED"))

/-- `ObjectProperty.has_animation`: Python returns `True` when some object has
animation data (and falls off the end, i.e. a falsy `None`, otherwise). -/
def has_animation (objs : List BObject) : Bool :=
  objs.any (fun b_obj => b_obj.animation_data)

/-- Python `d & ~(2 ^ b)` on the unsigned `integer_data` field: clear bit `b`,
keep every other bit. -/
def bitClear (d b : Nat) : Nat :=
  ((d >>> (b + 1)) <<< (b + 1)) ||| (d % 2 ^ b)

/-- `ObjectProperty.export_bs_x_flags`: for Bethesda games (`is_bs`), start a
`BSXFlags` block from the root object's stored `bsxflags`, then set or clear
the animated (`0x1`), Havok (`0x2`), complex (`0x4`) and dynamic (`0x20`)
bits in that order.  `has_collision` can raise, which aborts the export; when
the game is not a Bethesda one no block is produced (`none`). -/
def export_bs_x_flags (is_bs : Bool) (objs : List BObject) (bsxflags : Nat) :
    Except String (Option Nat) :=
  if is_bs then
    let d0 := bsxflags
    let d1 := if has_animation objs then d0 ||| 0x1 else bitClear d0 0
    match has_collision objs with
    | Except.error e => Except.error e
    | Except.ok col =>
      let d2 := if !col.isEmpty then d1 ||| 0x2 else bitClear d1 1
      let dyn := has_dynamic_collision objs
      let d3 := if !dyn.isEmpty && decide (col.length > 1) then d2 ||| 0x4
                else bitClear d2 2
      let d4 := if !dyn.isEmpty then d3 ||| 0x20 else bitClear d3 5
      Except.ok (some d4)
  else Except.ok none

/-! ## Helper lemmas -/

theorem nifGetattr_nifSetattr_self (b : NifBlock) (p : String) (v : NifValue) :
    nifGetattr (nifSetattr b p v) p = some v := by
  simp [nifGetattr, nifSetattr, List.lookup]

theorem nifGetattr_nifSetattr_ne (b : NifBlock) (p q : String) (v : NifValue)
    (h : p ≠ q) : nifGetattr (nifSetattr b q v) p = nifGetattr b p := by
  have hb : (p == q) = false := beq_eq_false_iff_ne.mpr h
  simp [nifGetattr, nifSetattr, List.lookup, hb]

theorem setAttrs_cons (pa : String × Option NifValue)
    (rest : List (String × Option NifValue)) (b : NifBlock) :
    setAttrs (pa :: rest) b =
      setAttrs rest (match pa.2 with
        | none => b
        | some v => nifSetattr b pa.1 v) := rfl

theorem setAttrs_getattr_of_not_mem (kwargs : List (String × Option NifValue))
    (b : NifBlock) (p : String) (h : p ∉ kwargs.map Prod.fst) :
    nifGetattr (setAttrs kwargs b) p = nifGetattr b p := by
  induction kwargs generalizing b with
  | nil => rfl
  | cons pa rest ih =>
    simp only [List.map_cons, List.mem_cons, not_or] at h
    rw [setAttrs_cons]
    cases hpa : pa.2 with
    | none => simpa using ih b h.2
    | some v =>
      rw [ih _ h.2, nifGetattr_nifSetattr_ne _ _ _ _ h.1]

theorem setAttrs_getattr_mem (kwargs : List (String × Option NifValue))
    (b : NifBlock) (p : String) (v : NifValue)
    (hnd : (kwargs.map Prod.fst).Nodup) (h : (p, some v) ∈ kwargs) :
    nifGetattr (setAttrs kwargs b) p = some v := by
  induction kwargs generalizing b with
  | nil => cases h
  | cons pa rest ih =>
    simp only [List.map_cons, List.nodup_cons] at hnd
    rcases List.mem_cons.mp h with heq | hmem
    · subst heq
      rw [setAttrs_cons]
      have hp : p ∉ rest.map Prod.fst := by simpa using hnd.1
      rw [setAttrs_getattr_of_not_mem rest _ p hp]
      exact nifGetattr_nifSetattr_self b p v
    · rw [setAttrs_cons]
      exact ih _ hnd.2 hmem

theorem kwargsMatch_iff (b : NifBlock) (kwargs : List (String × Option NifValue)) :
    kwargsMatch b kwargs = true ↔
      ∀ p v, (p, some v) ∈ kwargs → nifGetattr b p = some v := by
  induction kwargs with
  | nil => simp [kwargsMatch]
  | cons pa rest ih =>
    obtain ⟨q, a⟩ := pa
    cases a with
    | none =>
      simp only [kwargsMatch, List.all_cons] at ih ⊢
      rw [Bool.and_eq_true]
      constructor
      · rintro ⟨-, hr⟩ p v hm
        rcases List.mem_cons.mp hm with heq | hmem
        · cases heq
        · exact ih.mp hr p v hmem
      · intro hall
        exact ⟨rfl, ih.mpr fun p v hm => hall p v (List.mem_cons_of_mem _ hm)⟩
    | some w =>
      simp only [kwargsMatch, List.all_cons] at ih ⊢
      rw [Bool.and_eq_true]
      constructor
      · rintro ⟨hq, hr⟩ p v hm
        rcases List.mem_cons.mp hm with heq | hmem
        · rw [Prod.mk.injEq] at heq
          obtain ⟨rfl, hv⟩ := heq
          obtain rfl : v = w := by injection hv
          simpa using hq
        · exact ih.mp hr p v hmem
      · intro hall
        refine ⟨by simpa using hall q w (List.mem_cons_self _ _), ?_⟩
        exact ih.mpr fun p v hm => hall p v (List.mem_cons_of_mem _ hm)

/-! ## Claim theorems -/

/-- C3: `get_nif_interpolation` is total over all input strings: it maps
`LINEAR` to `LINEAR_KEY`, `CONSTANT` to `CONSTANT_KEY`, `BEZIER` to
`QUADRATIC_KEY`, and returns `LINEAR_KEY` for every other input. -/
theorem c3_get_nif_interpolation_total :
    get_nif_interpolation "LINEAR" = KeyType.LINEAR_KEY ∧
    get_nif_interpolation "CONSTANT" = KeyType.CONSTANT_KEY ∧
    get_nif_interpolation "BEZIER" = KeyType.QUADRATIC_KEY ∧
    ∀ s : String, s ≠ "LINEAR" → s ≠ "CONSTANT" → s ≠ "BEZIER" →
      get_nif_interpolation s = KeyType.LINEAR_KEY := by
  refine ⟨rfl, rfl, rfl, ?_⟩
  intro s h1 h2 h3
  have b1 : (s == "LINEAR") = false := beq_eq_false_iff_ne.mpr h1
  have b2 : (s == "CONSTANT") = false := beq_eq_false_iff_ne.mpr h2
  have b3 : (s == "BEZIER") = false := beq_eq_false_iff_ne.mpr h3
  simp [get_nif_interpolation, interpolation_map, List.lookup, b1, b2, b3]

/-- Witness for C3: the default branch fires on the Blender mode `SINE`. -/
theorem c3_witness : get_nif_interpolation "SINE" = KeyType.LINEAR_KEY :=
  c3_get_nif_interpolation_total.2.2.2 "SINE" (by decide) (by decide) (by decide)

/-- C4: `get_b_blend_type_from_n_apply_mode` is total over all apply-mode
values: `APPLY_MODULATE` maps to `MIX`, `APPLY_REPLACE` to `COLOR`,
`APPLY_DECAL` to `OVERLAY`, `APPLY_HILIGHT` to `LIGHTEN`, `APPLY_HILIGHT2` to
`MULTIPLY`, and every other value yields `MIX` after a logged warning (the
Bool component records the warning). -/
theorem c4_get_b_blend_type_total :
    get_b_blend_type_from_n_apply_mode APPLY_MODULATE = ("MIX", false) ∧
    get_b_blend_type_from_n_apply_mode APPLY_REPLACE = ("COLOR", false) ∧
    get_b_blend_type_from_n_apply_mode APPLY_DECAL = ("OVERLAY", false) ∧
    get_b_blend_type_from_n_apply_mode APPLY_HILIGHT = ("LIGHTEN", false) ∧
    get_b_blend_type_from_n_apply_mode APPLY_HILIGHT2 = ("MULTIPLY", false) ∧
    ∀ n : Nat,
      n ∉ [APPLY_REPLACE, APPLY_DECAL, APPLY_MODULATE, APPLY_HILIGHT, APPLY_HILIGHT2] →
      get_b_blend_type_from_n_apply_mode n = ("MIX", true) := by
  refine ⟨rfl, rfl, rfl, rfl, rfl, ?_⟩
  intro n hn
  simp only [List.mem_cons, List.not_mem_nil, or_false, not_or] at hn
  obtain ⟨h0, h1, h2, h3, h4⟩ := hn
  simp [get_b_blend_type_from_n_apply_mode, h0, h1, h2, h3, h4]

/-- Witness for C4: the fallthrough branch fires on the out-of-range value 7. -/
theorem c4_witness : get_b_blend_type_from_n_apply_mode 7 = ("MIX", true) :=
  c4_get_b_blend_type_total.2.2.2.2.2 7 (by decide)

/-- C5: `export_fcurve_to_nif_keys` writes exactly one NIF key per keyframe,
in keyframe order; each key's time is the keyframe's frame divided by the
frames-per-second constant, its value is the keyframe's value unchanged, and
its interpolation is the mapped interpolation mode. -/
theorem c5_export_fcurve_keys_spec (fps : ℚ) (kps : List Keyframe) :
    (export_fcurve_to_nif_keys fps kps).length = kps.length ∧
    ∀ (i : Nat) (k : Keyframe), kps[i]? = some k →
      (export_fcurve_to_nif_keys fps kps)[i]? =
        some { time := k.frame / fps, value := k.value,
               interpolation := get_nif_interpolation k.interpolation } := by
  refine ⟨List.length_map _ _, ?_⟩
  intro i k hk
  simp [export_fcurve_to_nif_keys, List.getElem?_map, hk]

/-- Witness for C5: one BEZIER keyframe at frame 12 with value 5, at 24 fps. -/
theorem c5_witness :
    (export_fcurve_to_nif_keys 24 [{ frame := 12, value := 5, interpolation := "BEZIER" }])[0]? =
      some { time := (12 : ℚ) / 24, value := 5,
             interpolation := get_nif_interpolation "BEZIER" } :=
  (c5_export_fcurve_keys_spec 24 [{ frame := 12, value := 5, interpolation := "BEZIER" }]).2
    0 { frame := 12, value := 5, interpolation := "BEZIER" } rfl

/-- C1: `get_matching_block` returns a block in which every non-None required
field equals the requested value; an already-registered block of the type
matching all non-None requirements is reused (registry unchanged), and a new
block with those fields set is created and registered only when no registered
block matches.  The `Nodup` hypothesis reflects that Python keyword argument
names are distinct. -/
theorem c1_get_matching_block_spec (reg : List NifBlock) (bt : String)
    (kwargs : List (String × Option NifValue)) (nb : NifBlock)
    (hnd : (kwargs.map Prod.fst).Nodup) :
    (∀ p v, (p, some v) ∈ kwargs →
      nifGetattr (get_matching_block reg bt kwargs nb).1 p = some v) ∧
    ((∃ b ∈ reg, typeMatches b bt = true ∧ kwargsMatch b kwargs = true) →
      (get_matching_block reg bt kwargs nb).1 ∈ reg ∧
      (get_matching_block reg bt kwargs nb).2 = reg) ∧
    ((∀ b ∈ reg, ¬(typeMatches b bt = true ∧ kwargsMatch b kwargs = true)) →
      (get_matching_block reg bt kwargs nb).1 = setAttrs kwargs nb ∧
      (get_matching_block reg bt kwargs nb).2 =
        reg ++ [setAttrs kwargs nb]) := by
  cases hfind : reg.find? (fun block => typeMatches block bt && kwargsMatch block kwargs) with
  | some b =>
    have hpred := List.find?_some hfind
    have hmem := List.mem_of_find?_eq_some hfind
    rw [Bool.and_eq_true] at hpred
    refine ⟨?_, ?_, ?_⟩
    · intro p v hpv
      have h1 : (get_matching_block reg bt kwargs nb).1 = b := by
        simp [get_matching_block, hfind]
      rw [h1]
      exact (kwargsMatch_iff b kwargs).mp hpred.2 p v hpv
    · intro _
      constructor
      · have h1 : (get_matching_block reg bt kwargs nb).1 = b := by
          simp [get_matching_block, hfind]
        rw [h1]; exact hmem
      · simp [get_matching_block, hfind]
    · intro hnone
      exact absurd ⟨hpred.1, hpred.2⟩ (hnone b hmem)
  | none =>
    have hval : get_matching_block reg bt kwargs nb =
        (setAttrs kwargs nb, reg ++ [setAttrs kwargs nb]) := by
      simp [get_matching_block, hfind]
    refine ⟨?_, ?_, ?_⟩
    · intro p v hpv
      rw [hval]
      exact setAttrs_getattr_mem kwargs nb p v hnd hpv
    · rintro ⟨b, hb, ht, hk⟩
      have := List.find?_eq_none.mp hfind b hb
      rw [Bool.and_eq_true] at this
      exact absurd ⟨ht, hk⟩ this
    · intro _
      rw [hval]
      exact ⟨rfl, rfl⟩

/-- Witness for C1: a registry holding one matching `NiZBufferProperty` block
is reused and left unchanged, and its fields meet the requirements. -/
theorem c1_witness :
    nifGetattr
      (get_matching_block
        [{ type_name := "<class nifgen.NiZBufferProperty>",
           attrs := [("flags", NifValue.int 15), ("function", NifValue.int 3)] }]
        "NiZBufferProperty"
        [("flags", some (NifValue.int 15)), ("function", some (NifValue.int 3))]
        { type_name := "<class nifgen.NiZBufferProperty>", attrs := [] }).1
      "flags" = some (NifValue.int 15) ∧
    (get_matching_block
        [{ type_name := "<class nifgen.NiZBufferProperty>",
           attrs := [("flags", NifValue.int 15), ("function", NifValue.int 3)] }]
        "NiZBufferProperty"
        [("flags", some (NifValue.int 15)), ("function", some (NifValue.int 3))]
        { type_name := "<class nifgen.NiZBufferProperty>", attrs := [] }).2 =
      [{ type_name := "<class nifgen.NiZBufferProperty>",
         attrs := [("flags", NifValue.int 15), ("function", NifValue.int 3)] }] := by
  refine ⟨(c1_get_matching_block_spec _ _ _ _ (by decide)).1 "flags" (NifValue.int 15)
      (by decide), ((c1_get_matching_block_spec _ _ _ _ (by decide)).2.1 ?_).2⟩
  exact ⟨{ type_name := "<class nifgen.NiZBufferProperty>",
           attrs := [("flags", NifValue.int 15), ("function", NifValue.int 3)] },
         by decide, by decide, by decide⟩

theorem lookup_append_of_none {α β : Type} [BEq α] (l1 l2 : List (α × β)) (k : α)
    (h : l1.lookup k = none) : (l1 ++ l2).lookup k = l2.lookup k := by
  induction l1 with
  | nil => rfl
  | cons kv rest ih =>
    obtain ⟨a, b⟩ := kv
    simp only [List.lookup] at h ⊢
    cases hk : k == a with
    | true => rw [hk] at h; simp at h
    | false =>
      rw [hk] at h
      simpa using ih h

/-- After `load_image st p`, the image registry maps the basename of `p` to
the returned image. -/
theorem load_image_lookup_self (st : BpyImages) (p : String) :
    (load_image st p).2.images.lookup (basename p) = some (load_image st p).1 := by
  unfold load_image
  cases h1 : st.images.lookup (basename p) with
  | some img => simp [h1]
  | none =>
    cases h2 : st.load_results.lookup p with
    | some img =>
      simp only [h1, h2]
      rw [lookup_append_of_none _ _ _ h1]
      simp [List.lookup]
    | none =>
      simp only [h1, h2]
      rw [lookup_append_of_none _ _ _ h1]
      simp [List.lookup]

/-- A registry hit short-circuits `load_image`: the stored image is returned
and the state (registry and access log alike) is untouched. -/
theorem load_image_of_lookup (st : BpyImages) (p : String) (img : BImage)
    (h : st.images.lookup (basename p) = some img) :
    load_image st p = (img, st) := by
  simp only [load_image, h]

/-- C2: `load_image` always returns an image (it is a total function); when
the image is not yet registered and the host load fails, the returned image
is a newly generated 1x1 placeholder carrying the requested name (the path
basename) and file path.  `import_external_source` likewise always ends by
returning the result of `load_image` on some path, even when no candidate
path exists on disk. -/
theorem c2_load_image_placeholder_total :
    (∀ (st : BpyImages) (p : String),
      st.images.lookup (basename p) = none →
      st.load_results.lookup p = none →
      (load_image st p).1.width = 1 ∧ (load_image st p).1.height = 1 ∧
      (load_image st p).1.name = basename p ∧
      (load_image st p).1.filepath = p) ∧
    (∀ (env : LoaderEnv) (st : BpyImages) (source : String),
      ∃ tex, import_external_source env st source = load_image st tex) := by
  constructor
  · intro st p h1 h2
    simp [load_image, h1, h2]
  · intro env st source
    cases h : find_in_dirs env (source.replace "\\" "/") (search_path_list env) with
    | some tex => exact ⟨tex, by simp only [import_external_source, h]⟩
    | none => exact ⟨source.replace "\\" "/", by simp only [import_external_source, h]⟩

/-- Witness for C2: loading a missing `textures/foo.dds` into an empty host
state yields the 1x1 placeholder named after the basename. -/
theorem c2_witness :
    (load_image { images := [], load_results := [], accesses := [] }
        "textures/foo.dds").1.width = 1 ∧
    (load_image { images := [], load_results := [], accesses := [] }
        "textures/foo.dds").1.height = 1 ∧
    (load_image { images := [], load_results := [], accesses := [] }
        "textures/foo.dds").1.name = basename "textures/foo.dds" ∧
    (load_image { images := [], load_results := [], accesses := [] }
        "textures/foo.dds").1.filepath = "textures/foo.dds" :=
  c2_load_image_placeholder_total.1
    { images := [], load_results := [], accesses := [] } "textures/foo.dds" rfl rfl

/-- C10: `load_image` keys images only by the path basename: after a call on
`p1`, a call on any `p2` with the same basename returns the image of the
first call and leaves the state unchanged (in particular the access log is
unchanged, so no file access happens). -/
theorem c10_load_image_basename_idempotent (st : BpyImages) (p1 p2 : String)
    (h : basename p2 = basename p1) :
    load_image (load_image st p1).2 p2 =
      ((load_image st p1).1, (load_image st p1).2) := by
  apply load_image_of_lookup
  rw [h]
  exact load_image_lookup_self st p1

/-- Witness for C10: `meshes/a/tex.dds` and `meshes/b/tex.dds` share the
basename `tex.dds`, so the second load is the cached first image. -/
theorem c10_witness :
    load_image
        (load_image { images := [], load_results := [], accesses := [] }
          "meshes/a/tex.dds").2 "meshes/b/tex.dds" =
      ((load_image { images := [], load_results := [], accesses := [] }
          "meshes/a/tex.dds").1,
       (load_image { images := [], load_results := [], accesses := [] }
          "meshes/a/tex.dds").2) :=
  c10_load_image_basename_idempotent
    { images := [], load_results := [], accesses := [] }
    "meshes/a/tex.dds" "meshes/b/tex.dds" (by decide)

/-- The path that `import_embedded_texture_source` extracts to. -/
def embedded_tex_path (env : EmbedEnv) (file_name : String) : String :=
  if file_name = "" then env.generated_name
  else path_join env.nif_dir file_name

/-- C8: within one run each embedded-texture path is written at most once:
the `.dds` file is opened and written only when the path is not yet in the
module-level `external_textures` set, the path is added to the set right
after, and a call whose path is already in the set performs no disk write
(so every later call with the same path writes nothing). -/
theorem c8_embedded_texture_written_once (env : EmbedEnv) (st : EmbedState)
    (file_name : String) :
    embedded_tex_path env file_name ∈
      (import_embedded_texture_source env st file_name).2.external_textures ∧
    (embedded_tex_path env file_name ∈ st.external_textures →
      (import_embedded_texture_source env st file_name).2.disk_writes =
        st.disk_writes ∧
      (import_embedded_texture_source env st file_name).2.external_textures =
        st.external_textures) ∧
    (embedded_tex_path env file_name ∉ st.external_textures →
      (import_embedded_texture_source env st file_name).2.disk_writes =
        st.disk_writes ++ [embedded_tex_path env file_name] ∧
      (import_embedded_texture_source env st file_name).2.external_textures =
        st.external_textures ++ [embedded_tex_path env file_name]) := by
  by_cases hmem : embedded_tex_path env file_name ∈ st.external_textures
  · refine ⟨?_, fun _ => ⟨?_, ?_⟩, fun hn => absurd hmem hn⟩ <;>
      simp only [import_embedded_texture_source, embedded_tex_path] at *
    · rw [if_pos hmem]; exact hmem
    · rw [if_pos hmem]
    · rw [if_pos hmem]
  · refine ⟨?_, fun hc => absurd hc hmem, fun _ => ⟨?_, ?_⟩⟩ <;>
      simp only [import_embedded_texture_source, embedded_tex_path] at *
    · rw [if_neg hmem]
      simp
    · rw [if_neg hmem]
    · rw [if_neg hmem]

/-- Witness for C8: a fresh state writes `dir/skin.dds` once and the
immediately following call with the same file name writes nothing more. -/
theorem c8_witness :
    (import_embedded_texture_source { nif_dir := "dir", generated_name := "gen.dds" }
        { external_textures := [], disk_writes := [],
          images := { images := [], load_results := [], accesses := [] } }
        "skin.dds").2.disk_writes = [embedded_tex_path
          { nif_dir := "dir", generated_name := "gen.dds" } "skin.dds"] ∧
    (import_embedded_texture_source { nif_dir := "dir", generated_name := "gen.dds" }
        (import_embedded_texture_source { nif_dir := "dir", generated_name := "gen.dds" }
          { external_textures := [], disk_writes := [],
            images := { images := [], load_results := [], accesses := [] } }
          "skin.dds").2
        "skin.dds").2.disk_writes =
      (import_embedded_texture_source { nif_dir := "dir", generated_name := "gen.dds" }
        { external_textures := [], disk_writes := [],
          images := { images := [], load_results := [], accesses := [] } }
        "skin.dds").2.disk_writes := by
  constructor
  · have h := (c8_embedded_texture_written_once
      { nif_dir := "dir", generated_name := "gen.dds" }
      { external_textures := [], disk_writes := [],
        images := { images := [], load_results := [], accesses := [] } }
      "skin.dds").2.2 (by decide)
    simpa using h.1
  · exact ((c8_embedded_texture_written_once
      { nif_dir := "dir", generated_name := "gen.dds" }
      (import_embedded_texture_source { nif_dir := "dir", generated_name := "gen.dds" }
        { external_textures := [], disk_writes := [],
          images := { images := [], load_results := [], accesses := [] } }
        "skin.dds").2
      "skin.dds").2.1 (by decide)).1

/-- C6: `get_uv_node` raises a hard `NifError` exactly when the texture
node's vector input socket has a link but the node feeding it is neither a
UV-map node nor a texture-coordinate node; an unlinked socket yields UV set
0, a UV-map node yields its parsed UV index, and a texture-coordinate node
yields `REFLECT`, all without raising. -/
theorem c6_get_uv_node_error_iff (socket : BNodeSocket) :
    ((∃ e, get_uv_node socket = Except.error e) ↔
      ∃ nm, socket.links.head? = some (BShaderNode.other nm)) ∧
    (socket.links = [] →
      get_uv_node socket = Except.ok (UVNodeResult.uv_index 0)) ∧
    (∀ s rest, socket.links = BShaderNode.uvmap s :: rest →
      get_uv_node socket = Except.ok (UVNodeResult.uv_index (parse_uv_index s))) ∧
    (∀ rest, socket.links = BShaderNode.texcoord :: rest →
      get_uv_node socket = Except.ok UVNodeResult.reflect) := by
  obtain ⟨links⟩ := socket
  refine ⟨?_, ?_, ?_, ?_⟩
  · cases links with
    | nil => simp [get_uv_node, get_input_node_of_type]
    | cons n rest =>
      cases n with
      | uvmap s => simp [get_uv_node, get_input_node_of_type]
      | texcoord => simp [get_uv_node, get_input_node_of_type]
      | other nm => simp [get_uv_node, get_input_node_of_type]
  · intro h
    simp only at h
    subst h
    rfl
  · intro s rest h
    simp only at h
    subst h
    rfl
  · intro rest h
    simp only at h
    subst h
    rfl

/-- Witness for C6: a socket fed by a texture-coordinate node returns the
`REFLECT` marker without raising. -/
theorem c6_witness :
    get_uv_node { links := [BShaderNode.texcoord] } =
      Except.ok UVNodeResult.reflect :=
  (c6_get_uv_node_error_iff { links := [BShaderNode.texcoord] }).2.2.2 [] rfl

/-- C7 counterexample: on an empty flip-book text buffer (zero non-empty
texture lines) `export_ni_flip_controller` does not skip the feature; the
`raise NifLog.warn(...)` line aborts the export, modelled as `Except.error`. -/
theorem c7_counterexample :
    (export_ni_flip_controller 30 1 10 0 []).2 = Except.error () := rfl

/-- C7 (amended): when the flip-book text buffer yields fewer than two
non-empty texture lines, `export_ni_flip_controller` logs the warning and
then aborts the export by raising (it does not merely skip the feature). -/
theorem c7_flip_warns_and_aborts (fps : ℚ) (frame_start frame_end : Int)
    (target_tex : Nat) (tlist : List String)
    (h : (tlist.filter (fun t => t.length ≠ 0)).length < 2) :
    export_ni_flip_controller fps frame_start frame_end target_tex tlist =
      (["Error in Texture Flip buffer: must define at least two textures"],
       Except.error ()) := by
  simp only [export_ni_flip_controller]
  rw [if_pos h]

/-- Witness for C7: a buffer holding a single non-empty line triggers the
warn-then-raise branch. -/
theorem c7_witness :
    export_ni_flip_controller 30 1 10 0 ["base.dds"] =
      (["Error in Texture Flip buffer: must define at least two textures"],
       Except.error ()) :=
  c7_flip_warns_and_aborts 30 1 10 0 ["base.dds"] (by decide)

theorem testBit_or_two_pow (d b n : Nat) :
    (d ||| 2 ^ b).testBit n = (d.testBit n || decide (b = n)) := by
  rw [Nat.testBit_or, Nat.testBit_two_pow]

theorem bitClear_testBit (d b n : Nat) :
    (bitClear d b).testBit n = if n = b then false else d.testBit n := by
  unfold bitClear
  rw [Nat.testBit_or, Nat.testBit_shiftLeft, Nat.testBit_shiftRight,
    Nat.testBit_mod_two_pow]
  rcases lt_trichotomy n b with h | h | h
  · have h1 : ¬(n ≥ b + 1) := by omega
    have h2 : n ≠ b := by omega
    simp [h1, h, h2]
  · subst h
    have h1 : ¬(n ≥ n + 1) := by omega
    simp [h1]
  · have h1 : n ≥ b + 1 := by omega
    have h2 : b + 1 + (n - (b + 1)) = n := by omega
    have h3 : ¬(n < b) := by omega
    have h4 : n ≠ b := by omega
    simp [h1, h2, h3, h4]

/-- One set-or-clear step of `export_bs_x_flags` forces its own bit to the
condition and leaves every other bit alone. -/
theorem step_testBit (c : Bool) (d b m : Nat) :
    (if c then d ||| 2 ^ b else bitClear d b).testBit m =
      if m = b then c else d.testBit m := by
  cases c with
  | false =>
    rw [if_neg (by exact Bool.false_ne_true)]
    rw [bitClear_testBit]
  | true =>
    simp only [if_true]
    rw [testBit_or_two_pow]
    by_cases h : m = b
    · subst h
      simp
    · have h2 : ¬(b = m) := fun hb => h hb.symm
      simp [h, h2]

/-- The condition under which `has_collision` keeps an object (given that it
does not raise). -/
def root_collider (b_obj : BObject) : Bool :=
  b_obj.rigid_body && (b_obj.parent_rigid_body == some false)

theorem has_collision_ok (objs : List BObject) (col : List BObject)
    (h : has_collision objs = Except.ok col) :
    col = objs.filter root_collider := by
  induction objs generalizing col with
  | nil =>
    simp only [has_collision, Except.ok.injEq] at h
    simp [h.symm]
  | cons o rest ih =>
    simp only [has_collision] at h
    by_cases hr : o.rigid_body
    · rw [if_pos hr] at h
      cases hp : o.parent_rigid_body with
      | none => rw [hp] at h; cases h
      | some prb =>
        rw [hp] at h
        cases prb with
        | false =>
          simp only [] at h
          cases hrest : has_collision rest with
          | error e => rw [hrest] at h; cases h
          | ok col' =>
            rw [hrest] at h
            rw [if_pos (by decide)] at h
            simp only [Except.map, Except.ok.injEq] at h
            have hcol' := ih col' hrest
            have hroot : root_collider o = true := by
              simp [root_collider, hr, hp]
            simp [← h, List.filter_cons, hroot, hcol']
        | true =>
          simp only [] at h
          have hroot : root_collider o = false := by
            simp [root_collider, hp]
          simp [List.filter_cons, hroot, ih col h]
    · rw [if_neg hr] at h
      have hroot : root_collider o = false := by
        simp [root_collider, hr]
      simp [List.filter_cons, hroot, ih col h]

theorem filter_nonempty_iff {α : Type} (p : α → Bool) (l : List α) :
    (!(l.filter p).isEmpty) = true ↔ ∃ x ∈ l, p x = true := by
  induction l with
  | nil => simp
  | cons x xs ih =>
    cases hpx : p x with
    | true => simp [List.filter_cons, hpx]
    | false => simp [List.filter_cons, hpx, ih]

theorem step1_testBit (c : Bool) (dd m : Nat) :
    (if c then dd ||| 0x1 else bitClear dd 0).testBit m =
      if m = 0 then c else dd.testBit m := by
  have hh := step_testBit c dd 0 m
  norm_num at hh
  exact hh

theorem step2_testBit (c : Bool) (dd m : Nat) :
    (if c then dd ||| 0x2 else bitClear dd 1).testBit m =
      if m = 1 then c else dd.testBit m := by
  have hh := step_testBit c dd 1 m
  norm_num at hh
  exact hh

theorem step4_testBit (c : Bool) (dd m : Nat) :
    (if c then dd ||| 0x4 else bitClear dd 2).testBit m =
      if m = 2 then c else dd.testBit m := by
  have hh := step_testBit c dd 2 m
  norm_num at hh
  exact hh

theorem step32_testBit (c : Bool) (dd m : Nat) :
    (if c then dd ||| 0x20 else bitClear dd 5).testBit m =
      if m = 5 then c else dd.testBit m := by
  have hh := step_testBit c dd 5 m
  norm_num at hh
  exact hh

/-- C9: for Bethesda games, when `export_bs_x_flags` completes, the exported
`BSXFlags` integer agrees with the root object's stored `bsxflags` on every
bit other than `0x1`, `0x2`, `0x4` and `0x20`; the `0x1` bit is set exactly
when some object has animation data, and the `0x2` bit is set exactly when
some object is a root rigid-body collider (a rigid body whose parent has
none). -/
theorem c9_export_bs_x_flags_bits (objs : List BObject) (bsxflags d : Nat)
    (h : export_bs_x_flags true objs bsxflags = Except.ok (some d)) :
    (∀ n, n ≠ 0 → n ≠ 1 → n ≠ 2 → n ≠ 5 →
      d.testBit n = bsxflags.testBit n) ∧
    d.testBit 0 = has_animation objs ∧
    (d.testBit 1 = true ↔ ∃ o ∈ objs, root_collider o = true) := by
  unfold export_bs_x_flags at h
  rw [if_pos rfl] at h
  cases hcol : has_collision objs with
  | error e => rw [hcol] at h; cases h
  | ok col =>
    rw [hcol] at h
    simp only [Except.ok.injEq, Option.some.injEq] at h
    subst h
    refine ⟨?_, ?_, ?_⟩
    · intro n h0 h1 h2 h5
      rw [step32_testBit, step4_testBit, step2_testBit, step1_testBit]
      simp [h0, h1, h2, h5]
    · rw [step32_testBit, step4_testBit, step2_testBit, step1_testBit]
      norm_num
    · rw [step32_testBit, step4_testBit, step2_testBit, step1_testBit]
      norm_num
      rw [has_collision_ok objs col hcol]
      rw [List.filter_eq_nil_iff]
      push_neg
      simp

/-- Witness for C9: one animated root rigid-body object with a dynamic motion
system and stored flags 64 exports the integer 99 = 64 + 0x20 + 0x2 + 0x1. -/
theorem c9_witness :
    Nat.testBit 99 6 = Nat.testBit 64 6 ∧
    Nat.testBit 99 0 = has_animation
      [{ rigid_body := true, parent_rigid_body := some false,
         animation_data := true, motion_system := "MO_SYS_DYNAMIC" }] ∧
    (Nat.testBit 99 1 = true ↔
      ∃ o ∈ [({ rigid_body := true, parent_rigid_body := some false,
                animation_data := true,
                motion_system := "MO_SYS_DYNAMIC" } : BObject)],
        root_collider o = true) := by
  have h := c9_export_bs_x_flags_bits
    [{ rigid_body := true, parent_rigid_body := some false,
       animation_data := true, motion_system := "MO_SYS_DYNAMIC" }]
    64 99 (by rfl)
  exact ⟨h.1 6 (by decide) (by decide) (by decide) (by decide), h.2.1, h.2.2⟩
